import Mathlib

/-!
Verification of the dataset-access layer (`dataset.py`) of the
vq-vae-2-pytorch repository: a shallow embedding of the indexed store
reader (`LMDBDataset`), the multi-source alignment loader (`CUBDataset`
construction), the example assembler (`CUBDataset.__getitem__`) and the
batch collator (`CUBDataset.collate_fn`), together with theorems settling
the specification's claims about them.

Conventions of the embedding:
* pandas tables read with `index_col=0` become association lists
  `List (Nat × α)` (id, value) preserving file row order; `.loc` lookup
  is first-match lookup (faithful for tables whose ids are unique, which
  is the regime pandas' unique-index `.loc` corresponds to);
* fallible Python code becomes `Except Err`; the `Err` constructors name
  the failure conditions using the specification's error taxonomy where
  the mapping is clear, and the concrete Python exception class
  (`valueError`, `keyError`, `indexError`, `assertionError`) otherwise;
* the filesystem and image decoder are an explicit environment `Env`:
  `isDir` for `os.path.isdir`, `imageShape` giving the shape of
  `np.array(Image.open(path))`, and `fileContents` for text files;
* the global pseudo-random generator consumed by `random.choice` is an
  explicit draw `r : Nat`; `random.choice(seq)` is modelled as picking
  element `r % len(seq)` (some element determined by the random source);
  construction threads the generator state through unchanged
  (`cubInitR`), since `__init__` never calls into the random module.
-/

/-- Failure conditions. Spec-taxonomy names are used where the mapping from
the concrete Python exception is clear; raw Python exception classes
otherwise. `indexOutOfRangeError` realizes `pickle.loads(None)` raising
`TypeError` when a store key is absent; `annMissingError` realizes
`FileNotFoundError` from `open` and `IndexError` from `random.choice([])`;
`rootNotFoundError` realizes the `ValueError` raised for a bad root. -/
inductive Err where
  | storeOpenError
  | corruptRecordError
  | indexOutOfRangeError
  | rootNotFoundError
  | imageLoadError
  | annMissingError
  | shapeMismatchError
  | tokenizationError
  | valueError
  | keyError
  | indexError
  | assertionError
  deriving DecidableEq, Repr

/-! ## Indexed store reader (`LMDBDataset`) -/

/-- `CodeRow = namedtuple('CodeRow', ['top', 'bottom', 'filename'])`; the
numeric arrays are modelled as integer lists (their contents pass through
untouched). -/
structure CodeRow where
  top : List Int
  bottom : List Int
  filename : String
  deriving DecidableEq, Repr

/-- A value stored in the LMDB key-value store: either a UTF-8 text blob
(the reserved `length` entry) or a pickled record blob, `recVal none`
standing for bytes that do not unpickle to a `CodeRow`. -/
inductive LmdbVal where
  | strVal (s : String)
  | recVal (r : Option CodeRow)
  deriving DecidableEq, Repr

/-- `torch.from_numpy`: pure conversion, contents unchanged. -/
def torchFromNumpy (a : List Int) : List Int := a

/-- The open handle: the read-only store plus the length counter read once
at open time (`LMDBDataset.__init__`). -/
structure LMDBDataset where
  store : List (String × LmdbVal)
  length : Nat
  deriving DecidableEq, Repr

/-- Decimal parsing of Python `int()` restricted to digit strings. -/
def parseNatAux : List Char → Nat → Option Nat
  | [], acc => some acc
  | c :: cs, acc =>
    if c.isDigit then parseNatAux cs (acc * 10 + (c.toNat - 48)) else none

/-- `int(s)` for a non-negative decimal string; `none` models the
`ValueError` on anything else. -/
def parseNat (s : String) : Option Nat :=
  match s.toList with
  | [] => none
  | l => parseNatAux l 0

/-- `LMDBDataset.__init__`: open read-only, read the reserved `length` key,
decode and parse it as an integer, and cache it. Any failure (missing
`length` key: `None.decode` raises; non-decimal contents: `int()` raises)
aborts construction. -/
def lmdbOpen (store : List (String × LmdbVal)) : Except Err LMDBDataset :=
  match store.lookup "length" with
  | none => Except.error Err.storeOpenError
  | some (LmdbVal.recVal _) => Except.error Err.storeOpenError
  | some (LmdbVal.strVal s) =>
    match parseNat s with
    | none => Except.error Err.storeOpenError
    | some n => Except.ok { store := store, length := n }

/-- `LMDBDataset.__len__`: returns the cached length counter. -/
def lmdbLen (d : LMDBDataset) : Nat := d.length

/-- `LMDBDataset.__getitem__`: look up key `str(index)` in a read-only
transaction and unpickle. A missing key makes `txn.get` return `None`,
on which `pickle.loads` raises (the spec's `IndexOutOfRangeError`);
a present but unparseable blob raises inside `pickle.loads`
(the spec's `CorruptRecordError`). -/
def lmdbGetitem (d : LMDBDataset) (index : Int) :
    Except Err (List Int × List Int × String) :=
  match d.store.lookup (toString index) with
  | none => Except.error Err.indexOutOfRangeError
  | some (LmdbVal.strVal _) => Except.error Err.corruptRecordError
  | some (LmdbVal.recVal none) => Except.error Err.corruptRecordError
  | some (LmdbVal.recVal (some r)) =>
    Except.ok (torchFromNumpy r.top, torchFromNumpy r.bottom, r.filename)

/-! ## Path and string helpers (`os.path`, `str` splitting) -/

/-- Index of the last occurrence of `c`, if any. -/
def lastIdxOf (c : Char) : List Char → Option Nat
  | [] => none
  | x :: xs =>
    match lastIdxOf c xs with
    | some i => some (i + 1)
    | none => if x = c then some 0 else none

/-- `os.path.splitext(p)[0]`: drop the extension, where the extension is
the suffix from the last dot of the basename, provided some earlier
character of the basename is not a dot (leading dots never start an
extension). -/
def pySplitextRoot (s : String) : String :=
  let l := s.toList
  match lastIdxOf '.' l with
  | none => s
  | some d =>
    let b := match lastIdxOf '/' l with
      | none => 0
      | some i => i + 1
    if b ≤ d then
      if ((l.drop b).take (d - b)).any (fun ch => ch != '.') then
        String.mk (l.take d)
      else s
    else s

/-- `os.path.basename`: the part after the last `/`. -/
def pyBasename (s : String) : String :=
  let l := s.toList
  match lastIdxOf '/' l with
  | none => s
  | some i => String.mk (l.drop (i + 1))

/-- `os.path.join` for a relative second component. -/
def pathJoin (a b : String) : String := a ++ "/" ++ b

/-- Python `file.readlines()`: the lines of the content, each keeping its
trailing newline; a final segment without a newline is kept as-is; the
empty content yields no lines. Blank lines appear as `"\n"`. -/
def splitLinesAux : List Char → List Char → List String
  | [], acc => if acc.isEmpty then [] else [String.mk acc.reverse]
  | c :: rest, acc =>
    if c = '\n' then String.mk (acc.reverse ++ ['\n']) :: splitLinesAux rest []
    else splitLinesAux rest (c :: acc)

/-- `readlines` on a whole file content string. -/
def readlines (s : String) : List String := splitLinesAux s.toList []

/-- The text of a line without its trailing newline. -/
def lineContent (l : String) : String :=
  let cs := l.toList
  if cs.getLast? = some '\n' then String.mk cs.dropLast else l

/-- Modelled from the spec: `the non-empty lines of the resolved annotation
file` — the lines whose content (excluding the newline terminator) is
non-empty. Used to compare the spec's claimed caption candidate set
against the one the code actually samples from. -/
def specNonEmptyLines (c : String) : List String :=
  (readlines c).filter (fun l => lineContent l != "")

/-! ## Multi-source alignment loader (`CUBDataset.__init__`) -/

/-- Decoded image: its path and the shape of `np.array(Image.open(path))`.
A grayscale image has a 2-element shape. -/
structure Img where
  path : String
  shape : List Nat
  deriving DecidableEq, Repr

/-- `torchvision.transforms.Resize((h, w))`: the two spatial dimensions are
replaced, remaining dimensions kept. -/
def resize (h w : Nat) (i : Img) : Img :=
  { i with shape := h :: w :: i.shape.drop 2 }

/-- The external world the loader touches: `os.path.isdir`, the image
decoder (shape of the decoded array at a path, `none` when the file
cannot be opened or decoded), and text-file contents. -/
structure Env where
  isDir : String → Bool
  imageShape : List (String × List Nat)
  fileContents : List (String × String)

/-- The four tabular indices read from fixed filenames under the root
(`images.txt`, `train_test_split.txt`, `image_class_labels.txt`,
`classes.txt`): association lists in file row order, first column the
key. -/
structure Tables where
  imgPathMap : List (Nat × String)
  trainTestMap : List (Nat × Nat)
  imgLabelMap : List (Nat × Nat)
  labelClsMap : List (Nat × String)

/-- `CUBDataset.TRAIN_CODE`. -/
def TRAIN_CODE : Nat := 0

/-- `CUBDataset.TEST_CODE`. -/
def TEST_CODE : Nat := 1

/-- `filter_code = self.TRAIN_CODE if self.mode == 'train' else self.TEST_CODE`. -/
def splitCode (mode : String) : Nat :=
  if mode = "train" then TRAIN_CODE else TEST_CODE

/-- The shared id domain: `index = img_path_map.index`. -/
def idsOf (t : Tables) : List Nat := t.imgPathMap.map Prod.fst

/-- `label_cls_map.loc[keys][1]`: look each key up, `KeyError` if absent
(pandas `.loc` with a missing label raises). -/
def lookupAll (m : List (Nat × String)) : List Nat → Except Err (List String)
  | [] => Except.ok []
  | k :: ks =>
    match m.lookup k with
    | none => Except.error Err.keyError
    | some v => (lookupAll m ks).map (fun r => v :: r)

/-- `pd.Series(values, index=index)`: pairs values with index labels
positionally; raises `ValueError` when the lengths disagree. -/
def mkSeries {α : Type} (values : List α) (index : List Nat) :
    Except Err (List (Nat × α)) :=
  if values.length = index.length then Except.ok (index.zip values)
  else Except.error Err.valueError

/-- `index[mask]` for a boolean mask: positional boolean indexing, keeping
the labels at `true` positions; raises `IndexError` when the mask length
does not match. -/
def indexMask (index : List Nat) (mask : List Bool) : Except Err (List Nat) :=
  if mask.length = index.length then
    Except.ok (((index.zip mask).filter (fun q => q.2)).map Prod.fst)
  else Except.error Err.indexError

/-- `series.loc[keys]`: select the rows at the given labels, in the order
of `keys`; `KeyError` if a label is absent. -/
def locAll {α : Type} (s : List (Nat × α)) : List Nat → Except Err (List (Nat × α))
  | [] => Except.ok []
  | k :: ks =>
    match s.lookup k with
    | none => Except.error Err.keyError
    | some v => (locAll s ks).map (fun r => (k, v) :: r)

/-- The derived annotation path
`os.path.join(root, 'text_c10', cls, f'{img_name}.txt')` with
`img_name = os.path.basename(os.path.splitext(img_path)[0])`. -/
def annPathOf (root cls imgPath : String) : String :=
  pathJoin (pathJoin (pathJoin root "text_c10") cls)
    (pyBasename (pySplitextRoot imgPath) ++ ".txt")

/-- The full image-path sequence `os.path.join(root, 'images', img_path)`
in table order. -/
def imagesFull (root : String) (t : Tables) : List String :=
  (t.imgPathMap.map Prod.snd).map (fun p => pathJoin (pathJoin root "images") p)

/-- The full derived annotation-path sequence, from
`zip(img_path_map[1], img_cls_map)`. -/
def annsFull (root : String) (t : Tables) (clsVals : List String) : List String :=
  ((t.imgPathMap.map Prod.snd).zip clsVals).map (fun pc => annPathOf root pc.2 pc.1)

/-- Second pass of `__init__`: open every surviving image; a decode failure
aborts construction; images whose decoded array is two-dimensional are
skipped, all others kept in order. -/
def grayFilter (env : Env) : List (String × String) → Except Err (List (String × String))
  | [] => Except.ok []
  | q :: rest =>
    match env.imageShape.lookup q.1 with
    | none => Except.error Err.imageLoadError
    | some sh =>
      if sh.length = 2 then grayFilter env rest
      else (grayFilter env rest).map (fun r => q :: r)

/-- Whether the second-pass filter keeps the row with image path `p`:
the decoded array exists and is not two-dimensional. -/
def keptByFilter (env : Env) (p : String) : Bool :=
  match env.imageShape.lookup p with
  | none => false
  | some sh => sh.length != 2

/-- The constructed loader: fields of `CUBDataset` after `__init__`. -/
structure Loader where
  root : String
  mode : String
  transform : Option (Img → Img)
  maxLength : Nat
  images : List (Nat × String)
  textAnns : List (Nat × String)
  filteredImages : List String
  filteredAnns : List String

/-- `CUBDataset.__init__`: check the root, load the four tables, resolve
class names, derive annotation paths, wrap into id-indexed series,
restrict to the requested split by a positional boolean mask over the
image-table index, and run the grayscale second pass. -/
def cubInit (env : Env) (root mode : String) (tf : Option (Img → Img))
    (ml : Nat) (t : Tables) : Except Err Loader :=
  if env.isDir root then
    (lookupAll t.labelClsMap (t.imgLabelMap.map Prod.snd)).bind (fun clsNames =>
    (mkSeries clsNames (idsOf t)).bind (fun imgClsMap =>
    (mkSeries (imagesFull root t) (idsOf t)).bind (fun images1 =>
    (mkSeries (annsFull root t (imgClsMap.map Prod.snd)) (idsOf t)).bind (fun anns1 =>
    (indexMask (idsOf t) (t.trainTestMap.map (fun r => r.2 == splitCode mode))).bind (fun validInds =>
    (locAll images1 validInds).bind (fun images2 =>
    (locAll anns1 validInds).bind (fun anns2 =>
    (grayFilter env ((images2.map Prod.snd).zip (anns2.map Prod.snd))).map (fun filtered =>
      { root := root, mode := mode, transform := tf, maxLength := ml,
        images := images2, textAnns := anns2,
        filteredImages := filtered.map Prod.fst,
        filteredAnns := filtered.map Prod.snd }))))))))
  else Except.error Err.rootNotFoundError

/-- Construction with the global pseudo-random generator state threaded
through: `__init__` performs no call into the random module, so the
state passes through unchanged. -/
def cubInitR (env : Env) (root mode : String) (tf : Option (Img → Img))
    (ml : Nat) (t : Tables) (rng : Nat) : Except Err Loader × Nat :=
  (cubInit env root mode tf ml t, rng)

/-- `CUBDataset.__len__`: asserts the co-indexed-length invariant
(`AssertionError` on violation) and returns the filtered corpus size. -/
def cubLen (L : Loader) : Except Err Nat :=
  if L.filteredImages.length = L.filteredAnns.length then
    Except.ok L.filteredImages.length
  else Except.error Err.assertionError

/-! ## Example assembler (`CUBDataset.__getitem__`) -/

/-- The effective position of Python list subscription: a negative index
counts from the end. -/
def pyIdx (n : Nat) (i : Int) : Int := if i < 0 then i + n else i

/-- Python list subscription `l[i]`: a negative index counts from the end;
out of range raises `IndexError`. -/
def pyListGet (l : List String) (i : Int) : Except Err String :=
  if 0 ≤ pyIdx l.length i ∧ pyIdx l.length i < l.length then
    Except.ok (l.getD (pyIdx l.length i).toNat "")
  else Except.error Err.indexError

/-- The caption block of `__getitem__`: open the annotation file (absent
file: `open` raises), `readlines()`, and `random.choice(lines)`
(`IndexError` on an empty line list; otherwise the element the random
draw selects). -/
def pickCaption (env : Env) (path : String) (r : Nat) : Except Err String :=
  match env.fileContents.lookup path with
  | none => Except.error Err.annMissingError
  | some c =>
    match readlines c with
    | [] => Except.error Err.annMissingError
    | x :: xs => Except.ok ((x :: xs).getD (r % (x :: xs).length) "")

/-- `if self.transform is not None: img = self.transform(img)`. -/
def appliedImg (tf : Option (Img → Img)) (i : Img) : Img :=
  match tf with
  | none => i
  | some f => f i

/-- `CUBDataset.__getitem__`: resolve both co-indexed paths at `idx`
(Python subscription), open the image, apply the transform when
present, derive the 128×128 low-resolution view, then sample one
annotation line. Returns `(img, img_low_res, annotation)`. -/
def cubGetitem (env : Env) (L : Loader) (idx : Int) (r : Nat) :
    Except Err (Img × Img × String) :=
  match pyListGet L.filteredImages idx, pyListGet L.filteredAnns idx with
  | Except.error e, _ => Except.error e
  | _, Except.error e => Except.error e
  | Except.ok imgPath, Except.ok annPath =>
    match env.imageShape.lookup imgPath with
    | none => Except.error Err.imageLoadError
    | some sh =>
      match pickCaption env annPath r with
      | Except.error e => Except.error e
      | Except.ok cap =>
        Except.ok (appliedImg L.transform { path := imgPath, shape := sh },
          resize 128 128 (appliedImg L.transform { path := imgPath, shape := sh }),
          cap)

/-- The caption component of a `__getitem__` result, when it succeeded. -/
def captionOf (x : Except Err (Img × Img × String)) : Option String :=
  match x with
  | Except.ok q => some q.2.2
  | Except.error _ => none

/-- The `filtered_images` of a construction result, when it succeeded. -/
def loaderFilteredImages (x : Except Err Loader) : Option (List String) :=
  match x with
  | Except.ok L => some L.filteredImages
  | Except.error _ => none

/-- The ids of the split-restricted `images` series of a construction
result, when it succeeded. -/
def loaderIds (x : Except Err Loader) : Option (List Nat) :=
  match x with
  | Except.ok L => some (L.images.map Prod.fst)
  | Except.error _ => none

/-- Whether a construction result is a failure. -/
def isErr (x : Except Err Loader) : Bool :=
  match x with
  | Except.ok _ => false
  | Except.error _ => true

/-! ## Batch collator (`CUBDataset.collate_fn`) -/

/-- A stacked tensor: the slices along the new leading dimension, and the
resulting shape. -/
structure Stacked where
  items : List Img
  shape : List Nat
  deriving DecidableEq, Repr

/-- `torch.stack(ts, dim=0)`: all inputs must share one shape
(`ShapeMismatchError` otherwise); the result gains a leading dimension
equal to the input count and keeps the inputs in order. -/
def torchStack (l : List Img) : Except Err Stacked :=
  match l with
  | [] => Except.error Err.valueError
  | x :: xs =>
    if xs.all (fun y => y.shape == x.shape) then
      Except.ok { items := x :: xs, shape := (x :: xs).length :: x.shape }
    else Except.error Err.shapeMismatchError

/-- Modelled from the spec: the external tokenizer collaborator
(`tokenize(list[str], padding, truncation, max_length)`), absent from the
source tree. Each caption is encoded independently, truncated at
`max_length`, and the batch is padded to its longest member; one output
row per input caption, in order. -/
def tokenizeBatch (ml : Nat) (caps : List String) : List (List Nat) :=
  let toks := caps.map (fun s => (s.toList.map Char.toNat).take ml)
  let m := toks.foldr (fun tt acc => max tt.length acc) 0
  toks.map (fun tt => tt ++ List.replicate (m - tt.length) 0)

/-- `CUBDataset.collate_fn`: unpack the batch positionally (an empty batch
makes the tuple unpacking of `zip(*batch)` raise), stack the first and
second components, and tokenize the caption list. -/
def collate_fn (ml : Nat) (batch : List (Img × Img × String)) :
    Except Err (Stacked × Stacked × List (List Nat)) :=
  match batch with
  | [] => Except.error Err.valueError
  | _ :: _ =>
    match torchStack (batch.map (fun x => x.1)),
          torchStack (batch.map (fun x => x.2.1)) with
    | Except.error e, _ => Except.error e
    | _, Except.error e => Except.error e
    | Except.ok s1, Except.ok s2 =>
      Except.ok (s1, s2, tokenizeBatch ml (batch.map (fun x => x.2.2)))

/-! ## Concrete corpora used by witnesses and counterexamples -/

/-- A tiny store: length counter 5, but only key `"0"` holds a record. -/
def store1 : List (String × LmdbVal) :=
  [("length", LmdbVal.strVal "5"),
   ("0", LmdbVal.recVal (some { top := [1], bottom := [2], filename := "f" }))]

/-- The handle `lmdbOpen` produces on `store1`. -/
def d1 : LMDBDataset := { store := store1, length := 5 }

/-- A three-image corpus under root `R`: ids 1, 2 are `train` (id 2
grayscale), id 3 is `test`; annotation files for ids 1 and 2, the one
for id 1 containing a blank second line. -/
def env0 : Env :=
  { isDir := fun s => s == "R"
    imageShape := [("R/images/001.A/a.jpg", [4, 4, 3]),
                   ("R/images/001.A/b.jpg", [4, 4]),
                   ("R/images/002.B/c.jpg", [4, 4, 3])]
    fileContents := [("R/text_c10/001.A/a.txt", "good\n\n"),
                     ("R/text_c10/001.A/b.txt", "cap\n")] }

/-- The four tables of the `env0` corpus. -/
def t0 : Tables :=
  { imgPathMap := [(1, "001.A/a.jpg"), (2, "001.A/b.jpg"), (3, "002.B/c.jpg")]
    trainTestMap := [(1, 0), (2, 0), (3, 1)]
    imgLabelMap := [(1, 1), (2, 1), (3, 2)]
    labelClsMap := [(1, "001.A"), (2, "002.B")] }

/-- The loader `cubInit` builds from `env0`/`t0` in `train` mode. -/
def L0 : Loader :=
  { root := "R", mode := "train", transform := none, maxLength := 64
    images := [(1, "R/images/001.A/a.jpg"), (2, "R/images/001.A/b.jpg")]
    textAnns := [(1, "R/text_c10/001.A/a.txt"), (2, "R/text_c10/001.A/b.txt")]
    filteredImages := ["R/images/001.A/a.jpg"]
    filteredAnns := ["R/text_c10/001.A/a.txt"] }

/-- `t0` with id 2 removed from the class-label table only: an id present
in the image-path table but absent from another source table. -/
def t4 : Tables :=
  { imgPathMap := [(1, "001.A/a.jpg"), (2, "001.A/b.jpg"), (3, "002.B/c.jpg")]
    trainTestMap := [(1, 0), (2, 0), (3, 1)]
    imgLabelMap := [(1, 1), (3, 2)]
    labelClsMap := [(1, "001.A"), (2, "002.B")] }

/-- A corpus whose single image decodes to a 4-channel (RGBA) array. -/
def env5 : Env :=
  { isDir := fun s => s == "R"
    imageShape := [("R/images/001.A/a.jpg", [4, 4, 4])]
    fileContents := [] }

/-- The tables of the `env5` corpus. -/
def t5 : Tables :=
  { imgPathMap := [(1, "001.A/a.jpg")]
    trainTestMap := [(1, 0)]
    imgLabelMap := [(1, 1)]
    labelClsMap := [(1, "001.A")] }

/-- A two-image corpus, both images three-channel. -/
def env7 : Env :=
  { isDir := fun s => s == "R"
    imageShape := [("R/images/001.A/a.jpg", [4, 4, 3]),
                   ("R/images/001.A/b.jpg", [4, 4, 3])]
    fileContents := [] }

/-- Tables whose split table lists the ids in the opposite order from the
image-path table: id 2 is marked `train` (code 0), id 1 `test` (code 1). -/
def t7 : Tables :=
  { imgPathMap := [(1, "001.A/a.jpg"), (2, "001.A/b.jpg")]
    trainTestMap := [(2, 0), (1, 1)]
    imgLabelMap := [(1, 1), (2, 1)]
    labelClsMap := [(1, "001.A")] }

/-- A concrete two-example batch with mutually compatible shapes. -/
def batch2 : List (Img × Img × String) :=
  [({ path := "p1", shape := [4, 4, 3] }, { path := "p1l", shape := [128, 128, 3] }, "a"),
   ({ path := "p2", shape := [4, 4, 3] }, { path := "p2l", shape := [128, 128, 3] }, "bc")]

/-! ## Helper lemmas -/

theorem exceptBind_ok {α β : Type} {x : Except Err α} {f : α → Except Err β}
    {b : β} (h : x.bind f = Except.ok b) :
    ∃ a, x = Except.ok a ∧ f a = Except.ok b := by
  cases x with
  | error e => simp [Except.bind] at h
  | ok a => exact ⟨a, rfl, h⟩

theorem exceptMap_ok {α β : Type} {x : Except Err α} {f : α → β} {b : β}
    (h : x.map f = Except.ok b) : ∃ a, x = Except.ok a ∧ f a = b := by
  cases x with
  | error e => simp [Except.map] at h
  | ok a =>
    refine ⟨a, rfl, ?_⟩
    simpa [Except.map] using h

theorem lookupAll_ok_length {m : List (Nat × String)} :
    ∀ {ks : List Nat} {out : List String},
      lookupAll m ks = Except.ok out → out.length = ks.length := by
  intro ks
  induction ks with
  | nil => intro out h; simp [lookupAll] at h; simp [← h]
  | cons k ks ih =>
    intro out h
    simp only [lookupAll] at h
    cases hm : m.lookup k with
    | none => rw [hm] at h; exact absurd h (by simp)
    | some v =>
      rw [hm] at h
      obtain ⟨r, hr, hout⟩ := exceptMap_ok h
      simp [← hout, ih hr]

theorem locAll_ok_fst {α : Type} {s : List (Nat × α)} :
    ∀ {ks : List Nat} {out : List (Nat × α)},
      locAll s ks = Except.ok out → out.map Prod.fst = ks := by
  intro ks
  induction ks with
  | nil => intro out h; simp [locAll] at h; simp [← h]
  | cons k ks ih =>
    intro out h
    simp only [locAll] at h
    cases hm : s.lookup k with
    | none => rw [hm] at h; exact absurd h (by simp)
    | some v =>
      rw [hm] at h
      obtain ⟨r, hr, hout⟩ := exceptMap_ok h
      simp [← hout, ih hr]

theorem locAll_cons_of_ne {α : Type} {a : Nat} {b : α} {s : List (Nat × α)} :
    ∀ {ks : List Nat}, (∀ k ∈ ks, k ≠ a) →
      locAll ((a, b) :: s) ks = locAll s ks := by
  intro ks
  induction ks with
  | nil => intro _; rfl
  | cons k ks ih =>
    intro hne
    have hk : k ≠ a := hne k (by simp)
    have hbeq : (k == a) = false := by
      simp [hk]
    simp only [locAll, List.lookup, hbeq, cond_false]
    rw [ih (fun x hx => hne x (by simp [hx]))]

theorem grayFilter_ok_eq {env : Env} :
    ∀ {ps out : List (String × String)},
      grayFilter env ps = Except.ok out →
      out = ps.filter (fun q => keptByFilter env q.1) := by
  intro ps
  induction ps with
  | nil =>
    intro out h
    simp [grayFilter] at h
    subst h
    rfl
  | cons q rest ih =>
    intro out h
    simp only [grayFilter] at h
    cases hm : env.imageShape.lookup q.1 with
    | none => rw [hm] at h; exact absurd h (by simp)
    | some sh =>
      rw [hm] at h
      have h' : (if sh.length = 2 then grayFilter env rest
                 else (grayFilter env rest).map (fun r => q :: r)) =
          Except.ok out := h
      by_cases h2 : sh.length = 2
      · rw [if_pos h2] at h'
        have hout := ih h'
        have hk : keptByFilter env q.1 = false := by
          simp [keptByFilter, hm, h2]
        simp [List.filter, hk, hout]
      · rw [if_neg h2] at h'
        obtain ⟨r, hr, hout⟩ := exceptMap_ok h'
        have hk : keptByFilter env q.1 = true := by
          simp [keptByFilter, hm, h2]
        simp [List.filter, hk, ← hout, ih hr]

theorem mkSeries_ok {α : Type} {v : List α} {idx : List Nat} {s : List (Nat × α)}
    (h : mkSeries v idx = Except.ok s) :
    s = idx.zip v ∧ v.length = idx.length := by
  unfold mkSeries at h
  by_cases hl : v.length = idx.length
  · rw [if_pos hl] at h
    exact ⟨(Except.ok.injEq _ _).mp h.symm, hl⟩
  · rw [if_neg hl] at h
    exact absurd h (by simp)

theorem indexMask_ok {idx : List Nat} {mask : List Bool} {v : List Nat}
    (h : indexMask idx mask = Except.ok v) :
    v = ((idx.zip mask).filter (fun q => q.2)).map Prod.fst ∧
      mask.length = idx.length := by
  unfold indexMask at h
  by_cases hl : mask.length = idx.length
  · rw [if_pos hl] at h
    exact ⟨(Except.ok.injEq _ _).mp h.symm, hl⟩
  · rw [if_neg hl] at h
    exact absurd h (by simp)

theorem maskKeys_mem {idx : List Nat} {mask : List Bool} {x : Nat}
    (h : x ∈ ((idx.zip mask).filter (fun q => q.2)).map Prod.fst) : x ∈ idx := by
  obtain ⟨⟨a, b⟩, hmem, hfst⟩ := List.mem_map.mp h
  have hz := List.mem_filter.mp hmem
  have := List.of_mem_zip hz.1
  simpa [← hfst] using this.1

theorem maskKeys_sublist {idx : List Nat} {mask : List Bool}
    (h : mask.length = idx.length) :
    (((idx.zip mask).filter (fun q => q.2)).map Prod.fst).Sublist idx := by
  have h1 : ((idx.zip mask).filter (fun q => q.2)).Sublist (idx.zip mask) :=
    List.filter_sublist _
  have h2 := h1.map Prod.fst
  rw [List.map_fst_zip idx mask (by omega)] at h2
  exact h2

theorem locAll_sublist {α : Type} :
    ∀ {s : List (Nat × α)} {ks : List Nat} {out : List (Nat × α)},
      (s.map Prod.fst).Nodup → ks.Sublist (s.map Prod.fst) →
      locAll s ks = Except.ok out → out.Sublist s := by
  intro s
  induction s with
  | nil =>
    intro ks out hnd hsub h
    have hks : ks = [] := List.sublist_nil.mp (by simpa using hsub)
    subst hks
    simp [locAll] at h
    simp [← h]
  | cons p s ih =>
    intro ks out hnd hsub h
    obtain ⟨a, b⟩ := p
    have hnd2 : (a :: s.map Prod.fst).Nodup := by simpa using hnd
    obtain ⟨hnotin, hnd3⟩ := List.nodup_cons.mp hnd2
    simp only [List.map_cons] at hsub
    cases hsub with
    | cons _ hs =>
      have hne : ∀ k ∈ ks, k ≠ a := fun k hk heq => hnotin (heq ▸ hs.subset hk)
      rw [locAll_cons_of_ne hne] at h
      exact (ih hnd3 hs h).cons (a, b)
    | cons₂ _ hs =>
      rename_i ks2
      have hlk : List.lookup a ((a, b) :: s) = some b := by
        simp [List.lookup]
      simp only [locAll] at h
      rw [hlk] at h
      have h2 : (locAll ((a, b) :: s) ks2).map (fun r => (a, b) :: r) =
          Except.ok out := h
      obtain ⟨r, hr, hout⟩ := exceptMap_ok h2
      have hne : ∀ k ∈ ks2, k ≠ a := fun k hk heq => hnotin (heq ▸ hs.subset hk)
      rw [locAll_cons_of_ne hne] at hr
      rw [← hout]
      exact (ih hnd3 hs hr).cons₂ (a, b)

theorem cubInit_ok_elim {env : Env} {root mode : String}
    {tf : Option (Img → Img)} {ml : Nat} {t : Tables} {L : Loader}
    (h : cubInit env root mode tf ml t = Except.ok L) :
    ∃ clsNames imgClsMap images1 anns1 validInds images2 anns2 filtered,
      env.isDir root = true ∧
      lookupAll t.labelClsMap (t.imgLabelMap.map Prod.snd) = Except.ok clsNames ∧
      mkSeries clsNames (idsOf t) = Except.ok imgClsMap ∧
      mkSeries (imagesFull root t) (idsOf t) = Except.ok images1 ∧
      mkSeries (annsFull root t (imgClsMap.map Prod.snd)) (idsOf t) = Except.ok anns1 ∧
      indexMask (idsOf t) (t.trainTestMap.map (fun r => r.2 == splitCode mode)) =
        Except.ok validInds ∧
      locAll images1 validInds = Except.ok images2 ∧
      locAll anns1 validInds = Except.ok anns2 ∧
      grayFilter env ((images2.map Prod.snd).zip (anns2.map Prod.snd)) =
        Except.ok filtered ∧
      L = { root := root, mode := mode, transform := tf, maxLength := ml,
            images := images2, textAnns := anns2,
            filteredImages := filtered.map Prod.fst,
            filteredAnns := filtered.map Prod.snd } := by
  unfold cubInit at h
  by_cases hdir : env.isDir root
  · rw [if_pos hdir] at h
    obtain ⟨clsNames, h1, h⟩ := exceptBind_ok h
    obtain ⟨imgClsMap, h2, h⟩ := exceptBind_ok h
    obtain ⟨images1, h3, h⟩ := exceptBind_ok h
    obtain ⟨anns1, h4, h⟩ := exceptBind_ok h
    obtain ⟨validInds, h5, h⟩ := exceptBind_ok h
    obtain ⟨images2, h6, h⟩ := exceptBind_ok h
    obtain ⟨anns2, h7, h⟩ := exceptBind_ok h
    obtain ⟨filtered, h8, h9⟩ := exceptMap_ok h
    exact ⟨clsNames, imgClsMap, images1, anns1, validInds, images2, anns2,
      filtered, hdir, h1, h2, h3, h4, h5, h6, h7, h8, h9.symm⟩
  · rw [if_neg hdir] at h
    exact absurd h (by simp)

theorem pyListGet_neg {l : List String} {i : Int}
    (h1 : -(l.length : Int) ≤ i) (h2 : i < 0) :
    pyListGet l i = Except.ok (l.getD (i + l.length).toNat "") := by
  have hj : pyIdx l.length i = i + l.length := if_pos h2
  unfold pyListGet
  rw [hj, if_pos (by omega)]

theorem pyListGet_nonneg {l : List String} {i : Int}
    (h1 : 0 ≤ i) (h2 : i < (l.length : Int)) :
    pyListGet l i = Except.ok (l.getD i.toNat "") := by
  have hj : pyIdx l.length i = i := if_neg (by omega)
  unfold pyListGet
  rw [hj, if_pos (by omega)]

theorem getD_mod_mem (l : List String) (r : Nat) (h : l ≠ []) :
    l.getD (r % l.length) "" ∈ l := by
  have hlen : 0 < l.length := List.length_pos.mpr h
  have hlt : r % l.length < l.length := Nat.mod_lt _ hlen
  rw [List.getD_eq_getElem l "" hlt]
  exact List.getElem_mem hlt

theorem mask_filter_rows (code : Nat) :
    ∀ rows : List (Nat × Nat),
      (((rows.map Prod.fst).zip (rows.map (fun q => q.2 == code))).filter
          (fun q => q.2)).map Prod.fst
        = (rows.filter (fun q => q.2 == code)).map Prod.fst := by
  intro rows
  induction rows with
  | nil => rfl
  | cons p rs ih =>
    obtain ⟨a, c⟩ := p
    simp only [List.map_cons, List.zip_cons_cons]
    cases hb : (c == code) with
    | false =>
      rw [List.filter_cons_of_neg (by simp [hb]),
        List.filter_cons_of_neg (by simp [hb])]
      exact ih
    | true =>
      rw [List.filter_cons_of_pos (by simp [hb]),
        List.filter_cons_of_pos (by simp [hb])]
      simp only [List.map_cons]
      rw [ih]

theorem torchStack_const_shape {l : List Img} {s : List Nat}
    (hne : l ≠ []) (hs : ∀ y ∈ l, y.shape = s) :
    torchStack l = Except.ok { items := l, shape := l.length :: s } := by
  cases l with
  | nil => exact absurd rfl hne
  | cons x xs =>
    have hred : torchStack (x :: xs) =
        if (xs.all fun y => y.shape == x.shape) = true then
          Except.ok { items := x :: xs, shape := (x :: xs).length :: x.shape }
        else Except.error Err.shapeMismatchError := rfl
    rw [hred, if_pos ?hall]
    case hall =>
      rw [List.all_eq_true]
      intro y hy
      rw [hs y (by simp [hy]), hs x (by simp)]
      simp
    rw [hs x (by simp)]

/-! ## Claims -/

/-- C1: for every open store handle and every integer index with no
corresponding key in the store, `get` fails with the spec's
`IndexOutOfRangeError` (realized as `pickle.loads(None)` raising);
no relation between the index and the cached length counter is assumed,
so this holds in particular when `index < len`. -/
theorem lmdbGetitem_missing_key_fails (store : List (String × LmdbVal))
    (d : LMDBDataset) (index : Int)
    (hopen : lmdbOpen store = Except.ok d)
    (hmiss : d.store.lookup (toString index) = none) :
    lmdbGetitem d index = Except.error Err.indexOutOfRangeError := by
  unfold lmdbGetitem
  rw [hmiss]

/-- Witness for C1: a store whose length counter says 5 but which only
holds key `"0"`; `get 3` fails although `3 < 5`. -/
theorem lmdbGetitem_missing_key_fails_witness :
    lmdbOpen store1 = Except.ok d1 ∧
    d1.store.lookup (toString (3 : Int)) = none ∧
    (3 : Int) < (lmdbLen d1 : Int) ∧
    lmdbGetitem d1 3 = Except.error Err.indexOutOfRangeError :=
  ⟨rfl, rfl, by decide, lmdbGetitem_missing_key_fails store1 d1 3 rfl rfl⟩

/-- C2: after every successful construction the two filtered sequences
have equal length, `len()` returns that length, and `len()` treats a
violation of the invariant as a fatal assertion failure. -/
theorem cubInit_coindexed_lengths (env : Env) (root mode : String)
    (tf : Option (Img → Img)) (ml : Nat) (t : Tables) (L : Loader)
    (h : cubInit env root mode tf ml t = Except.ok L) :
    L.filteredImages.length = L.filteredAnns.length ∧
    cubLen L = Except.ok L.filteredImages.length ∧
    ∀ M : Loader, M.filteredImages.length ≠ M.filteredAnns.length →
      cubLen M = Except.error Err.assertionError := by
  obtain ⟨_, _, _, _, _, _, _, filtered, _, _, _, _, _, _, _, _, _, hL⟩ :=
    cubInit_ok_elim h
  subst hL
  refine ⟨by simp, ?_, ?_⟩
  · unfold cubLen
    rw [if_pos (by simp)]
  · intro M hne
    unfold cubLen
    rw [if_neg hne]

/-- Witness for C2 at the concrete corpus `env0`/`t0`. -/
theorem cubInit_coindexed_lengths_witness :
    L0.filteredImages.length = L0.filteredAnns.length ∧
    cubLen L0 = Except.ok L0.filteredImages.length :=
  ⟨(cubInit_coindexed_lengths env0 "R" "train" none 64 t0 L0 rfl).1,
   (cubInit_coindexed_lengths env0 "R" "train" none 64 t0 L0 rfl).2.1⟩

/-- C9: construction is deterministic — the result does not depend on the
pseudo-random generator state, and the state comes back unchanged
(no random source is consulted during `__init__`). -/
theorem cubInit_deterministic_no_rng (env : Env) (root mode : String)
    (tf : Option (Img → Img)) (ml : Nat) (t : Tables) (r1 r2 : Nat) :
    (cubInitR env root mode tf ml t r1).1 = (cubInitR env root mode tf ml t r2).1 ∧
    (cubInitR env root mode tf ml t r1).2 = r1 :=
  ⟨rfl, rfl⟩

/-- C4 counterexample: id 2 is present in the image-path table and absent
from the class-label table; construction fails with the `ValueError`
from the misaligned `pd.Series` construction instead of skipping id 2. -/
theorem join_mismatch_fails_counterexample :
    cubInit env0 "R" "train" none 64 t4 = Except.error Err.valueError ∧
    2 ∈ t4.imgPathMap.map Prod.fst ∧ ¬ 2 ∈ t4.imgLabelMap.map Prod.fst :=
  ⟨rfl, by decide, by decide⟩

/-- C4 (amended): an id missing from the class-label table (manifesting as
the two tables having different sizes) makes construction fail; such
ids are not treated as absent-by-join and skipped. -/
theorem join_mismatch_aborts_init (env : Env) (root mode : String)
    (tf : Option (Img → Img)) (ml : Nat) (t : Tables)
    (hlen : t.imgLabelMap.length ≠ t.imgPathMap.length) :
    isErr (cubInit env root mode tf ml t) = true := by
  unfold cubInit
  by_cases hdir : env.isDir root
  · rw [if_pos hdir]
    cases hlk : lookupAll t.labelClsMap (t.imgLabelMap.map Prod.snd) with
    | error e => rfl
    | ok cs =>
      simp only [Except.bind]
      have hcs : cs.length = t.imgLabelMap.length := by
        simpa using lookupAll_ok_length hlk
      have hms : mkSeries cs (idsOf t) = Except.error Err.valueError := by
        unfold mkSeries
        rw [if_neg (by simp [idsOf]; omega)]
      rw [hms]
      rfl
  · rw [if_neg hdir]
    rfl

/-- Witness for the amended C4 at the concrete corpus `env0`/`t4`. -/
theorem join_mismatch_aborts_init_witness :
    t4.imgLabelMap.length ≠ t4.imgPathMap.length ∧
    isErr (cubInit env0 "R" "train" none 64 t4) = true :=
  ⟨by decide, join_mismatch_aborts_init env0 "R" "train" none 64 t4 (by decide)⟩

/-- C8 counterexample: collating an empty sequence of examples does not
yield a batch — the tuple unpacking of `zip(*batch)` raises. -/
theorem collate_empty_batch_counterexample :
    collate_fn 64 ([] : List (Img × Img × String)) =
      Except.error Err.valueError := rfl

/-- C8 (amended): for every non-empty sequence of N assembled examples
with mutually compatible shapes, collation succeeds, both stacked
tensors have leading dimension N and keep the examples in batch order,
and the tokenized caption batch has length N. -/
theorem collate_batch_dims (ml : Nat) (batch : List (Img × Img × String))
    (sa sb : List Nat) (hne : batch ≠ [])
    (ha : ∀ x ∈ batch, x.1.shape = sa) (hb : ∀ x ∈ batch, x.2.1.shape = sb) :
    collate_fn ml batch =
      Except.ok ({ items := batch.map (fun x => x.1),
                   shape := batch.length :: sa },
                 { items := batch.map (fun x => x.2.1),
                   shape := batch.length :: sb },
                 tokenizeBatch ml (batch.map (fun x => x.2.2))) ∧
    (tokenizeBatch ml (batch.map (fun x => x.2.2))).length = batch.length := by
  have hs1 : torchStack (batch.map (fun q => q.1)) =
      Except.ok { items := batch.map (fun q => q.1),
                  shape := (batch.map (fun q => q.1)).length :: sa } := by
    refine torchStack_const_shape (by simpa using hne) ?_
    intro y hy
    obtain ⟨q, hq, hqy⟩ := List.mem_map.mp hy
    rw [← hqy]
    exact ha q hq
  have hs2 : torchStack (batch.map (fun q => q.2.1)) =
      Except.ok { items := batch.map (fun q => q.2.1),
                  shape := (batch.map (fun q => q.2.1)).length :: sb } := by
    refine torchStack_const_shape (by simpa using hne) ?_
    intro y hy
    obtain ⟨q, hq, hqy⟩ := List.mem_map.mp hy
    rw [← hqy]
    exact hb q hq
  cases batch with
  | nil => exact absurd rfl hne
  | cons x xs =>
    constructor
    · unfold collate_fn
      rw [hs1, hs2]
      simp
    · simp [tokenizeBatch]

/-- Witness for the amended C8 at a concrete two-example batch. -/
theorem collate_batch_dims_witness :
    collate_fn 64 batch2 =
      Except.ok ({ items := batch2.map (fun x => x.1),
                   shape := batch2.length :: [4, 4, 3] },
                 { items := batch2.map (fun x => x.2.1),
                   shape := batch2.length :: [128, 128, 3] },
                 tokenizeBatch 64 (batch2.map (fun x => x.2.2))) ∧
    (tokenizeBatch 64 (batch2.map (fun x => x.2.2))).length = batch2.length :=
  collate_batch_dims 64 batch2 [4, 4, 3] [128, 128, 3]
    (by decide) (by decide) (by decide)

theorem pickCaption_none {env : Env} {path : String} {r : Nat}
    (h : env.fileContents.lookup path = none) :
    pickCaption env path r = Except.error Err.annMissingError := by
  unfold pickCaption
  rw [h]

theorem pickCaption_some {env : Env} {path : String} {r : Nat} {c : String}
    (h : env.fileContents.lookup path = some c) :
    pickCaption env path r =
      (match readlines c with
       | [] => Except.error Err.annMissingError
       | x :: xs => Except.ok ((x :: xs).getD (r % (x :: xs).length) "")) := by
  unfold pickCaption
  rw [h]

/-- C3 counterexample: the annotation file `"good\n\n"` has a blank second
line; the assembler can return the blank line `"\n"` as caption (random
draw 1), which is not among the spec's non-empty lines — the candidate
set is not `exactly the non-empty lines`. -/
theorem caption_blank_line_counterexample :
    captionOf (cubGetitem env0 L0 0 1) = some "\n" ∧
    pyListGet L0.filteredAnns 0 = Except.ok "R/text_c10/001.A/a.txt" ∧
    env0.fileContents.lookup "R/text_c10/001.A/a.txt" = some "good\n\n" ∧
    specNonEmptyLines "good\n\n" = ["good\n"] ∧
    ¬ "\n" ∈ specNonEmptyLines "good\n\n" :=
  ⟨rfl, rfl, rfl, by decide, by decide⟩

/-- C3 (amended): when the example assembler's `get` reaches the caption
step (both paths resolve and the image decodes), it operates on the file
at `filtered_annotations[index]`: it fails when the file is absent, fails
when the file has no lines, and otherwise returns a caption drawn from
the file's `readlines()` line set (all lines, blank lines included). -/
theorem caption_sampled_from_readlines (env : Env) (L : Loader) (idx : Int)
    (r : Nat) (path ipath : String) (sh : List Nat)
    (hpath : pyListGet L.filteredAnns idx = Except.ok path)
    (himg : pyListGet L.filteredImages idx = Except.ok ipath)
    (hshape : env.imageShape.lookup ipath = some sh) :
    (env.fileContents.lookup path = none →
      cubGetitem env L idx r = Except.error Err.annMissingError) ∧
    (∀ c, env.fileContents.lookup path = some c → readlines c = [] →
      cubGetitem env L idx r = Except.error Err.annMissingError) ∧
    (∀ c, env.fileContents.lookup path = some c → readlines c ≠ [] →
      captionOf (cubGetitem env L idx r) =
        some ((readlines c).getD (r % (readlines c).length) "") ∧
      (readlines c).getD (r % (readlines c).length) "" ∈ readlines c) := by
  have hstep : cubGetitem env L idx r =
      (match env.imageShape.lookup ipath with
       | none => Except.error Err.imageLoadError
       | some sh2 =>
         match pickCaption env path r with
         | Except.error e => Except.error e
         | Except.ok cap =>
           Except.ok (appliedImg L.transform { path := ipath, shape := sh2 },
             resize 128 128 (appliedImg L.transform { path := ipath, shape := sh2 }),
             cap)) := by
    unfold cubGetitem
    rw [himg, hpath]
  have hstep2 : cubGetitem env L idx r =
      (match pickCaption env path r with
       | Except.error e => Except.error e
       | Except.ok cap =>
         Except.ok (appliedImg L.transform { path := ipath, shape := sh },
           resize 128 128 (appliedImg L.transform { path := ipath, shape := sh }),
           cap)) := by
    rw [hstep, hshape]
  refine ⟨?_, ?_, ?_⟩
  · intro hnone
    rw [hstep2, pickCaption_none hnone]
  · intro c hc hemp
    rw [hstep2, pickCaption_some hc, hemp]
  · intro c hc hne
    rw [hstep2, pickCaption_some hc]
    cases hl : readlines c with
    | nil => exact absurd hl hne
    | cons x xs =>
      exact ⟨rfl, getD_mod_mem _ r (by simp)⟩

/-- Witness for the amended C3 at the concrete corpus: random draw 0
selects the first line of `"good\n\n"`. -/
theorem caption_sampled_from_readlines_witness :
    captionOf (cubGetitem env0 L0 0 0) =
      some ((readlines "good\n\n").getD (0 % (readlines "good\n\n").length) "") ∧
    (readlines "good\n\n").getD (0 % (readlines "good\n\n").length) "" ∈
      readlines "good\n\n" :=
  (caption_sampled_from_readlines env0 L0 0 0 "R/text_c10/001.A/a.txt"
    "R/images/001.A/a.jpg" [4, 4, 3] rfl rfl rfl).2.2 "good\n\n" rfl (by decide)

/-- C5 counterexample: a 4-channel (RGBA) image — channel count 4 ≠ 3 —
survives the filter, because the code only drops two-dimensional
arrays; so the validity predicate is not `channel count = 3`. -/
theorem four_channel_image_survives_counterexample :
    loaderFilteredImages (cubInit env5 "R" "train" none 64 t5) =
      some ["R/images/001.A/a.jpg"] ∧
    env5.imageShape.lookup "R/images/001.A/a.jpg" = some [4, 4, 4] ∧
    [4, 4, 4].getD 2 0 ≠ 3 :=
  ⟨rfl, rfl, by decide⟩

/-- C5 (amended): the image-validity filter removes exactly the rows whose
decoded array is two-dimensional: the filtered sequences are the
filter of the split-restricted rows by that predicate, and every
surviving image decodes to an array of dimension other than 2. -/
theorem grayscale_filter_drops_twodim_exactly (env : Env) (root mode : String)
    (tf : Option (Img → Img)) (ml : Nat) (t : Tables) (L : Loader)
    (h : cubInit env root mode tf ml t = Except.ok L) :
    L.filteredImages =
      (((L.images.map Prod.snd).zip (L.textAnns.map Prod.snd)).filter
        (fun q => keptByFilter env q.1)).map Prod.fst ∧
    L.filteredAnns =
      (((L.images.map Prod.snd).zip (L.textAnns.map Prod.snd)).filter
        (fun q => keptByFilter env q.1)).map Prod.snd ∧
    ∀ p ∈ L.filteredImages, keptByFilter env p = true := by
  obtain ⟨cs, icm, i1, a1, vi, i2, a2, filtered,
    hdir, h1, h2, h3, h4, h5, h6, h7, h8, hL⟩ := cubInit_ok_elim h
  subst hL
  have hf := grayFilter_ok_eq h8
  refine ⟨by simp [hf], by simp [hf], ?_⟩
  intro p hp
  have hp2 : p ∈ List.map Prod.fst filtered := hp
  rw [hf] at hp2
  obtain ⟨q, hq, hqp⟩ := List.mem_map.mp hp2
  have hkept := (List.mem_filter.mp hq).2
  rw [← hqp]
  simpa using hkept

/-- Witness for the amended C5 at the concrete corpus `env0`/`t0`. -/
theorem grayscale_filter_drops_twodim_exactly_witness :
    L0.filteredImages =
      (((L0.images.map Prod.snd).zip (L0.textAnns.map Prod.snd)).filter
        (fun q => keptByFilter env0 q.1)).map Prod.fst ∧
    keptByFilter env0 "R/images/001.A/a.jpg" = true ∧
    keptByFilter env0 "R/images/001.A/b.jpg" = false :=
  ⟨(grayscale_filter_drops_twodim_exactly env0 "R" "train" none 64 t0 L0 rfl).1,
   by decide, by decide⟩

/-- C6: filtering is order-preserving — the split-restricted ids follow
the source image-path table's order (a sublist of it), the filtered
image paths are a sublist of the split-restricted paths, and those in
turn are a sublist of the full source image-path sequence. -/
theorem filtering_order_preserving (env : Env) (root mode : String)
    (tf : Option (Img → Img)) (ml : Nat) (t : Tables) (L : Loader)
    (hnd : (idsOf t).Nodup)
    (h : cubInit env root mode tf ml t = Except.ok L) :
    (L.images.map Prod.fst).Sublist (idsOf t) ∧
    L.filteredImages.Sublist (L.images.map Prod.snd) ∧
    (L.images.map Prod.snd).Sublist (imagesFull root t) := by
  obtain ⟨cs, icm, i1, a1, vi, i2, a2, filtered,
    hdir, h1, h2, h3, h4, h5, h6, h7, h8, hL⟩ := cubInit_ok_elim h
  subst hL
  obtain ⟨hi1, hleni⟩ := mkSeries_ok h3
  obtain ⟨hvi, hmask⟩ := indexMask_ok h5
  have hfst_i2 : i2.map Prod.fst = vi := locAll_ok_fst h6
  have hfst_a2 : a2.map Prod.fst = vi := locAll_ok_fst h7
  have hvi_sub : vi.Sublist (idsOf t) := by
    rw [hvi]
    exact maskKeys_sublist hmask
  refine ⟨?_, ?_, ?_⟩
  · show (i2.map Prod.fst).Sublist (idsOf t)
    rw [hfst_i2]
    exact hvi_sub
  · show (filtered.map Prod.fst).Sublist (i2.map Prod.snd)
    have hf := grayFilter_ok_eq h8
    have hsubf : filtered.Sublist ((i2.map Prod.snd).zip (a2.map Prod.snd)) := by
      rw [hf]
      exact List.filter_sublist _
    have hm := hsubf.map Prod.fst
    have hlen2 : (i2.map Prod.snd).length ≤ (a2.map Prod.snd).length := by
      have e1 : i2.length = vi.length := by
        rw [← hfst_i2]
        simp
      have e2 : a2.length = vi.length := by
        rw [← hfst_a2]
        simp
      simp [e1, e2]
    rw [List.map_fst_zip _ _ hlen2] at hm
    exact hm
  · show (i2.map Prod.snd).Sublist (imagesFull root t)
    have hfst_i1 : i1.map Prod.fst = idsOf t := by
      rw [hi1]
      exact List.map_fst_zip _ _ (by omega)
    have hnd1 : (i1.map Prod.fst).Nodup := by
      rw [hfst_i1]
      exact hnd
    have hsubk : vi.Sublist (i1.map Prod.fst) := by
      rw [hfst_i1]
      exact hvi_sub
    have hsub2 : i2.Sublist i1 := locAll_sublist hnd1 hsubk h6
    have hm := hsub2.map Prod.snd
    have hsnd_i1 : i1.map Prod.snd = imagesFull root t := by
      rw [hi1]
      exact List.map_snd_zip _ _ (by omega)
    rw [hsnd_i1] at hm
    exact hm

/-- Witness for C6 at the concrete corpus `env0`/`t0`. -/
theorem filtering_order_preserving_witness :
    (idsOf t0).Nodup ∧
    (L0.images.map Prod.fst).Sublist (idsOf t0) ∧
    L0.filteredImages.Sublist (L0.images.map Prod.snd) :=
  ⟨by decide,
   (filtering_order_preserving env0 "R" "train" none 64 t0 L0 (by decide) rfl).1,
   (filtering_order_preserving env0 "R" "train" none 64 t0 L0 (by decide) rfl).2.1⟩

/-- C7 counterexample: the split table of `t7` lists ids in the opposite
order from the image-path table; in `train` mode the loader keeps id 1,
whose own split code is `TEST_CODE`, and drops id 2, whose split code is
`TRAIN_CODE` — the mask is applied positionally, not by id. -/
theorem split_mask_positional_counterexample :
    loaderIds (cubInit env7 "R" "train" none 64 t7) = some [1] ∧
    t7.trainTestMap.lookup 1 = some TEST_CODE ∧
    t7.trainTestMap.lookup 2 = some TRAIN_CODE ∧
    splitCode "train" = TRAIN_CODE ∧ TEST_CODE ≠ TRAIN_CODE :=
  ⟨rfl, rfl, rfl, rfl, by decide⟩

/-- C7 (amended): the requested code is `TRAIN_CODE = 0` for mode `train`
and `TEST_CODE = 1` otherwise, and the split mask is positional; when
the split table lists the same ids in the same order as the image-path
table, the restriction keeps exactly the ids whose split code equals the
requested code. -/
theorem split_restriction_aligned_tables (env : Env) (root mode : String)
    (tf : Option (Img → Img)) (ml : Nat) (t : Tables) (L : Loader)
    (hord : t.trainTestMap.map Prod.fst = t.imgPathMap.map Prod.fst)
    (h : cubInit env root mode tf ml t = Except.ok L) :
    L.images.map Prod.fst =
      (t.trainTestMap.filter (fun q => q.2 == splitCode mode)).map Prod.fst ∧
    TRAIN_CODE = 0 ∧ TEST_CODE = 1 ∧
    splitCode mode = (if mode = "train" then 0 else 1) := by
  obtain ⟨cs, icm, i1, a1, vi, i2, a2, filtered,
    hdir, h1, h2, h3, h4, h5, h6, h7, h8, hL⟩ := cubInit_ok_elim h
  subst hL
  obtain ⟨hvi, hmask⟩ := indexMask_ok h5
  have hfst_i2 : i2.map Prod.fst = vi := locAll_ok_fst h6
  refine ⟨?_, rfl, rfl, rfl⟩
  show i2.map Prod.fst = _
  rw [hfst_i2, hvi, show idsOf t = t.trainTestMap.map Prod.fst from hord.symm]
  exact mask_filter_rows (splitCode mode) t.trainTestMap

/-- Witness for the amended C7 at the concrete corpus `env0`/`t0`. -/
theorem split_restriction_aligned_tables_witness :
    L0.images.map Prod.fst =
      (t0.trainTestMap.filter (fun q => q.2 == splitCode "train")).map Prod.fst :=
  (split_restriction_aligned_tables env0 "R" "train" none 64 t0 L0 rfl rfl).1

/-- C10: the example assembler performs no index validation: for a loader
with co-indexed sequences of length `n ≥ 1` and `-n ≤ idx ≤ -1`, `get`
resolves the row at `n + idx` (the subscription succeeds rather than
raising an out-of-range error), and the whole access equals the access
at `n + idx` for the same random draw. -/
theorem negative_index_wraps (env : Env) (L : Loader) (idx : Int) (r : Nat)
    (hlen : L.filteredAnns.length = L.filteredImages.length)
    (hn : 1 ≤ L.filteredImages.length)
    (h1 : -(L.filteredImages.length : Int) ≤ idx) (h2 : idx ≤ -1) :
    cubGetitem env L idx r =
      cubGetitem env L ((L.filteredImages.length : Int) + idx) r ∧
    pyListGet L.filteredImages idx =
      Except.ok (L.filteredImages.getD
        ((L.filteredImages.length : Int) + idx).toNat "") := by
  have hneg : idx < 0 := by omega
  have himg1 := pyListGet_neg (l := L.filteredImages) h1 hneg
  have himg2 := pyListGet_nonneg (l := L.filteredImages)
    (i := (L.filteredImages.length : Int) + idx) (by omega) (by omega)
  have hann1 := pyListGet_neg (l := L.filteredAnns) (by omega) hneg
  have hann2 := pyListGet_nonneg (l := L.filteredAnns)
    (i := (L.filteredImages.length : Int) + idx) (by omega) (by omega)
  have he1 : (idx + (L.filteredImages.length : Int)).toNat =
      ((L.filteredImages.length : Int) + idx).toNat := by omega
  have he2 : (idx + (L.filteredAnns.length : Int)).toNat =
      ((L.filteredImages.length : Int) + idx).toNat := by omega
  constructor
  · unfold cubGetitem
    rw [himg1, himg2, hann1, hann2, he1, he2]
  · rw [himg1, he1]

/-- Witness for C10 at the concrete loader: `get(-1)` resolves row 0. -/
theorem negative_index_wraps_witness :
    cubGetitem env0 L0 (-1) 0 =
      cubGetitem env0 L0 ((L0.filteredImages.length : Int) + (-1)) 0 ∧
    pyListGet L0.filteredImages (-1) =
      Except.ok (L0.filteredImages.getD
        ((L0.filteredImages.length : Int) + (-1)).toNat "") :=
  negative_index_wraps env0 L0 (-1) 0 rfl (by decide) (by decide) (by decide)
